import Mathlib

set_option maxRecDepth 100000

/-!
Verification of the NeoZZZ headless Tetris engine core against its
natural-language specification.

The definitions below are a shallow embedding of the C++ sources:

* `src/unnamed/part_001` (tetris_piece.hpp): `PieceType`, `Rotation`,
  rotation arithmetic, `Position`, `PieceState`;
* `src/core/move.hpp`: `MoveType`, `Move`, wall-kick data;
* `src/rotation_systems/srs.cpp`: shape bitmaps, wall-kick tables,
  `getInitialState`;
* `src/unnamed/part_002` (tetris_piece.cpp): derived piece dimensions,
  `getFilledCells`, `getAbsoluteFilledCells`;
* `src/core/tetris_board.cpp` (row-bitmap `Board`) and
  `src/unnamed/part_000` (bitset `Board`): both Board implementations;
* `src/core/game_state.cpp`: `GameState`, `applyMove` (both revisions in
  the file), `spawnPiece`, `holdCurrentPiece`, `lockCurrentPiece`;
* `src/unnamed/part_006` (path_search.cpp): the BFS placement search,
  `applyHardDrop`, `detectTSpin`;
* `src/rotation_systems/rule_factory.cpp`: the rotation-system registry.

Machine integers of the C++ (`int32_t`, `int64_t`) are embedded as `Int`;
no arithmetic in the verified scenarios approaches 2^31, so no wrap-around
modelling is required.  Bit sets (`std::bitset`, `uint32_t` rows) are
embedded as `Nat` with `Nat.testBit` / shifts.
-/

namespace NeoZZZ

/-- The seven tetromino types (`enum class PieceType`, part_001). -/
inductive PieceType
  | I | J | L | O | S | T | Z
deriving DecidableEq, Repr

/-- The four rotation states (`enum class Rotation`, part_001). -/
inductive Rotation
  | R0 | R90 | R180 | R270
deriving DecidableEq, Repr

/-- Underlying value of a rotation state (`std::to_underlying`). -/
def Rotation.toNat : Rotation → Nat
  | .R0 => 0
  | .R90 => 1
  | .R180 => 2
  | .R270 => 3

/-- Rotation from an underlying value taken mod 4 (`static_cast<Rotation>`). -/
def Rotation.fromNat (n : Nat) : Rotation :=
  match n % 4 with
  | 0 => .R0
  | 1 => .R90
  | 2 => .R180
  | _ => .R270

/-- `rotateClockwise` (part_001): `(r + 1) % 4`. -/
def rotateClockwise (r : Rotation) : Rotation := Rotation.fromNat ((r.toNat + 1) % 4)

/-- `rotateCounterClockwise` (part_001): `(r + 3) % 4`. -/
def rotateCounterClockwise (r : Rotation) : Rotation := Rotation.fromNat ((r.toNat + 3) % 4)

/-- `rotate180` (part_001): `(r + 2) % 4`. -/
def rotate180 (r : Rotation) : Rotation := Rotation.fromNat ((r.toNat + 2) % 4)

/-- A board position (`struct Position`, part_001); `int32_t` coordinates. -/
structure Position where
  xPos : Int
  yPos : Int
deriving DecidableEq, Repr

/-- `Position::operator+`. -/
def Position.add (p q : Position) : Position := ⟨p.xPos + q.xPos, p.yPos + q.yPos⟩

/-- The state of a tetromino (`class PieceState`, part_001). -/
structure PieceState where
  type : PieceType
  position : Position
  rotation : Rotation
deriving DecidableEq, Repr

/-- Move types (`enum class MoveType`, move.hpp). -/
inductive MoveType
  | Left | Right | Down | Up
  | RotateClockwise | RotateCounterClockwise | Rotate180
  | HardDrop | SoftDrop | Hold
deriving DecidableEq, Repr

/-- A move (`class Move`, move.hpp): type plus wall-kick index, `-1` if none. -/
structure Move where
  type : MoveType
  wallKickIndex : Int := -1
deriving DecidableEq, Repr

/-! ### SRS shape tables (srs.cpp)

Each shape is a 16-bit bitmap for a 4x4 grid; the piece code tests bit
`y * 4 + x` (`Piece::updateDimensions`, part_002).  The numeric literals are
transcribed verbatim from srs.cpp. -/

/-- `SRS::getShapeData` (srs.cpp lines 288-310 with the tables at 13-177). -/
def srsShapeBits : PieceType → Rotation → Nat
  | .I, .R0 => 0b0000111100000000
  | .I, .R90 => 0b0010001000100010
  | .I, .R180 => 0b0000000011110000
  | .I, .R270 => 0b0100010001000100
  | .O, _ => 0b0000011001100000
  | .T, .R0 => 0b0000010011100000
  | .T, .R90 => 0b0000010001100100
  | .T, .R180 => 0b0000000011100100
  | .T, .R270 => 0b0000010011000100
  | .L, .R0 => 0b0000001011100000
  | .L, .R90 => 0b0000010001000110
  | .L, .R180 => 0b0000000011101000
  | .L, .R270 => 0b0000110001000100
  | .J, .R0 => 0b0000100011100000
  | .J, .R90 => 0b0000011001000100
  | .J, .R180 => 0b0000000011100010
  | .J, .R270 => 0b0000010001001100
  | .S, .R0 => 0b0000011011000000
  | .S, .R90 => 0b0000010001100010
  | .S, .R180 => 0b0000000001101100
  | .S, .R270 => 0b0000100011000100
  | .Z, .R0 => 0b0000110001100000
  | .Z, .R90 => 0b0000001001100100
  | .Z, .R180 => 0b0000000011000110
  | .Z, .R270 => 0b0000010011001000

/-- Shared J/L/S/T/Z clockwise kick table (srs.cpp lines 183-190),
indexed by the source rotation. -/
def jlstzKicksCW : Rotation → List (Int × Int)
  | .R0 => [(0, 0), (-1, 0), (-1, 1), (0, -2), (-1, -2)]
  | .R90 => [(0, 0), (1, 0), (1, -1), (0, 2), (1, 2)]
  | .R180 => [(0, 0), (1, 0), (1, 1), (0, -2), (1, -2)]
  | .R270 => [(0, 0), (-1, 0), (-1, -1), (0, 2), (-1, 2)]

/-- Shared J/L/S/T/Z counter-clockwise kick table (srs.cpp lines 192-199). -/
def jlstzKicksCCW : Rotation → List (Int × Int)
  | .R0 => [(0, 0), (1, 0), (1, 1), (0, -2), (1, -2)]
  | .R90 => [(0, 0), (1, 0), (1, -1), (0, 2), (1, 2)]
  | .R180 => [(0, 0), (-1, 0), (-1, 1), (0, -2), (-1, -2)]
  | .R270 => [(0, 0), (-1, 0), (-1, -1), (0, 2), (-1, 2)]

/-- I-piece clockwise kick table (srs.cpp lines 204-211). -/
def iKicksCW : Rotation → List (Int × Int)
  | .R0 => [(0, 0), (-2, 0), (1, 0), (-2, -1), (1, 2)]
  | .R90 => [(0, 0), (-1, 0), (2, 0), (-1, 2), (2, -1)]
  | .R180 => [(0, 0), (2, 0), (-1, 0), (2, 1), (-1, -2)]
  | .R270 => [(0, 0), (1, 0), (-2, 0), (1, -2), (-2, 1)]

/-- I-piece counter-clockwise kick table (srs.cpp lines 213-220). -/
def iKicksCCW : Rotation → List (Int × Int)
  | .R0 => [(0, 0), (-1, 0), (2, 0), (-1, 2), (2, -1)]
  | .R90 => [(0, 0), (2, 0), (-1, 0), (2, 1), (-1, -2)]
  | .R180 => [(0, 0), (1, 0), (-2, 0), (1, -2), (-2, 1)]
  | .R270 => [(0, 0), (-2, 0), (1, 0), (-2, -1), (1, 2)]

/-- `SRS::getClockwiseWallKicks` (srs.cpp lines 231-249). -/
def srsClockwiseKicks (t : PieceType) (fromRot : Rotation) : List (Int × Int) :=
  match t with
  | .I => iKicksCW fromRot
  | .O => [(0, 0)]
  | _ => jlstzKicksCW fromRot

/-- `SRS::getCounterClockwiseWallKicks` (srs.cpp lines 251-269). -/
def srsCounterClockwiseKicks (t : PieceType) (fromRot : Rotation) : List (Int × Int) :=
  match t with
  | .I => iKicksCCW fromRot
  | .O => [(0, 0)]
  | _ => jlstzKicksCCW fromRot

/-- `SRS::get180WallKicks` (srs.cpp lines 271-273): always the single
identity offset. -/
def srs180Kicks (_ : PieceType) (_ : Rotation) : List (Int × Int) := [(0, 0)]

/-- `SRS::getInitialState` (srs.cpp lines 275-286):
`x = (W - 4) / 2`, `y = min(21, H - 1)`, rotation `R0`.  `Int.tdiv` is C++
truncating division (the operands are non-negative on every valid board). -/
def srsInitialState (t : PieceType) (boardWidth boardHeight : Int) : PieceState :=
  { type := t
    position := ⟨(boardWidth - 4).tdiv 2, min 21 (boardHeight - 1)⟩
    rotation := .R0 }

/-! ### Piece derived data (part_002, tetris_piece.cpp)

`Piece` caches `m_shapeData`, `m_width`, `m_height` and recomputes them on
every `setState`; with the rotation system fixed to the (stateless) SRS they
are functions of the `PieceState`, which is how they are embedded here. -/

/-- `m_width` from `Piece::updateDimensions` (part_002 lines 71-95):
max of `x + 1` over all set bits `y * 4 + x` of the 4x4 shape. -/
def pieceWidth (v : Nat) : Nat :=
  (List.range 16).foldl (fun w i => if v.testBit i then max w (i % 4 + 1) else w) 0

/-- `m_height` from `Piece::updateDimensions` (part_002 lines 71-95):
max of `y + 1` over all set bits `y * 4 + x` of the 4x4 shape. -/
def pieceHeight (v : Nat) : Nat :=
  (List.range 16).foldl (fun h i => if v.testBit i then max h (i / 4 + 1) else h) 0

/-- `Piece::getFilledCells` (part_002 lines 34-47).  NOTE: the source loops
`y` over `[0, m_height)` and `x` over `[0, m_width)` but tests bit
`y * m_width + x`, although the shape bitmap is laid out with stride 4
(`updateDimensions` tests `y * maxSize + x`).  The transcription keeps that
stride mismatch. -/
def filledCellsOfShape (v : Nat) : List Position :=
  let w := pieceWidth v
  let h := pieceHeight v
  (List.range h).flatMap fun y =>
    (List.range w).filterMap fun x =>
      if v.testBit (y * w + x) then some ⟨(x : Int), (y : Int)⟩ else none

/-- Filled cells of a piece in piece-relative coordinates. -/
def pieceFilledCells (s : PieceState) : List Position :=
  filledCellsOfShape (srsShapeBits s.type s.rotation)

/-- `Piece::getAbsoluteFilledCells` (part_002 lines 49-59): each relative
cell translated by the piece position. -/
def absoluteFilledCells (s : PieceState) : List Position :=
  (pieceFilledCells s).map fun c => ⟨c.xPos + s.position.xPos, c.yPos + s.position.yPos⟩

/-! ### The row-bitmap Board (src/core/tetris_board.cpp, first document)

`m_rows` is an `std::array<std::uint32_t, maxHeight>`; bit `x` of `m_rows[y]`
is cell `(x, y)`.  Embedded as a `List Nat` of length `maxHeight = 40`. -/

/-- Compile-time maximum board width (tetris_board.hpp). -/
def maxWidth : Int := 32

/-- Compile-time maximum board height (tetris_board.hpp). -/
def maxHeight : Int := 40

/-- The row-bitmap `Board` of src/core/tetris_board.cpp. -/
structure RowsBoard where
  width : Int
  height : Int
  rows : List Nat
  columnHeights : List Int
  roof : Int
  filledCount : Int
  fullRowMask : Nat
deriving DecidableEq, Repr

/-- `Board::Board(width, height)` (tetris_board.cpp lines 8-23); `none`
models the `std::invalid_argument` throw on invalid dimensions. -/
def mkRowsBoard (w h : Int) : Option RowsBoard :=
  if w > maxWidth ∨ h > maxHeight ∨ w < 4 ∨ h < 4 then none
  else some
    { width := w
      height := h
      rows := List.replicate 40 0
      columnHeights := List.replicate 32 0
      roof := 0
      filledCount := 0
      fullRowMask := if w = 32 then 0xFFFFFFFF else 2 ^ w.toNat - 1 }

/-- `Board::isFilled` (tetris_board.cpp lines 38-44): out of range is
`false`, otherwise bit `x` of row `y`. -/
def RowsBoard.isFilled (b : RowsBoard) (x y : Int) : Bool :=
  if x < 0 ∨ x ≥ b.width ∨ y < 0 ∨ y ≥ b.height then false
  else (b.rows.getD y.toNat 0).testBit x.toNat

/-- `Board::fillCell` (tetris_board.cpp lines 46-67). -/
def RowsBoard.fillCell (b : RowsBoard) (x y : Int) : RowsBoard :=
  if x < 0 ∨ x ≥ b.width ∨ y < 0 ∨ y ≥ b.height then b
  else if b.isFilled x y then b
  else
    let rows := b.rows.set y.toNat ((b.rows.getD y.toNat 0) ||| (1 <<< x.toNat))
    if y + 1 > b.columnHeights.getD x.toNat 0 then
      { b with
        rows := rows
        columnHeights := b.columnHeights.set x.toNat (y + 1)
        roof := max b.roof (y + 1)
        filledCount := b.filledCount + 1 }
    else
      { b with rows := rows, filledCount := b.filledCount + 1 }

/-- `updateHeights()` (tetris_board.cpp lines 159-173): recompute all column
heights of columns `[0, width)` and the roof from the rows. -/
def RowsBoard.updateHeights (b : RowsBoard) : RowsBoard :=
  let colTop : Nat → Int := fun x =>
    match (List.range b.height.toNat).reverse.find? (fun y => b.isFilled x y) with
    | some y => (y : Int) + 1
    | none => 0
  let step := fun (acc : List Int × Int) (x : Nat) =>
    let t := colTop x
    (acc.1.set x t, max acc.2 t)
  let res := (List.range b.width.toNat).foldl step (b.columnHeights, 0)
  { b with columnHeights := res.1, roof := res.2 }

/-- `Board::clearCell` (tetris_board.cpp lines 69-102). -/
def RowsBoard.clearCell (b : RowsBoard) (x y : Int) : RowsBoard :=
  if x < 0 ∨ x ≥ b.width ∨ y < 0 ∨ y ≥ b.height then b
  else if ¬ b.isFilled x y then b
  else
    let rows := b.rows.set y.toNat
      ((b.rows.getD y.toNat 0) &&& (0xFFFFFFFF ^^^ (1 <<< x.toNat)))
    let b1 := { b with rows := rows, filledCount := b.filledCount - 1 }
    if y + 1 = b.columnHeights.getD x.toNat 0 then
      let newHeight : Int :=
        match (List.range y.toNat).reverse.find? (fun i => b1.isFilled x i) with
        | some i => (i : Int) + 1
        | none => 0
      let b2 := { b1 with columnHeights := b1.columnHeights.set x.toNat newHeight }
      if y + 1 = b.roof then b2.updateHeights else b2
    else b1

/-- `Board::isRowFilled` (tetris_board.cpp lines 143-149). -/
def RowsBoard.isRowFilled (b : RowsBoard) (row : Int) : Bool :=
  if row < 0 ∨ row ≥ b.height then false
  else b.rows.getD row.toNat 0 = b.fullRowMask

/-- The row-shift of `Board::clearFilledRows` (tetris_board.cpp lines
119-124): `m_rows[i] = m_rows[i+1]` for `i` in `[y, height-1)`, then
`m_rows[height-1] = 0`. -/
def shiftRowsDown (rows : List Nat) (y h : Nat) : List Nat :=
  let shifted := (List.range (h - 1 - y)).foldl
    (fun rs k => rs.set (y + k) (rs.getD (y + k + 1) 0)) rows
  shifted.set (h - 1) 0

/-- The scan loop of `Board::clearFilledRows` (tetris_board.cpp lines
112-141).  The `--y` of the source is modelled by recursing at the same `y`;
`fuel` bounds the iteration count (each step either advances `y` or removes
a full row, so `2 * height` steps always suffice). -/
def rowsClearLoop (mask : Nat) (w h : Int) :
    List Nat → Nat → Int → Nat → List Nat × Int
  | rows, _, cleared, 0 => (rows, cleared)
  | rows, y, cleared, fuel + 1 =>
    if y < h.toNat then
      if rows.getD y 0 = mask then
        rowsClearLoop mask w h (shiftRowsDown rows y h.toNat) y (cleared + 1) fuel
      else
        rowsClearLoop mask w h rows (y + 1) cleared fuel
    else (rows, cleared)

/-- `Board::clearFilledRows` (tetris_board.cpp lines 112-141): remove full
rows bottom-up, shift the rows above down, fix up `filledCount`, and
re-derive the height caches when anything was cleared. -/
def RowsBoard.clearFilledRows (b : RowsBoard) : RowsBoard × Int :=
  let res := rowsClearLoop b.fullRowMask b.width b.height b.rows 0 0 (2 * b.height.toNat + 1)
  let cleared := res.2
  let b1 := { b with rows := res.1, filledCount := b.filledCount - cleared * b.width }
  if cleared > 0 then (b1.updateHeights, cleared) else (b1, cleared)

/-- Population count of the low `width` bits of a natural number viewed as a
bitmap (`std::bitset::count` / `std::popcount` restricted to the bitmap
size). -/
def natPopcount (width : Nat) (n : Nat) : Nat :=
  ((List.range width).filter (fun i => n.testBit i)).length

/-- Popcount of the occupancy bitmap of a row-bitmap board: the 40 stored
`uint32_t` rows. -/
def RowsBoard.popcount (b : RowsBoard) : Nat :=
  (b.rows.map (natPopcount 32)).sum


/-! ### The bitset Board (src/unnamed/part_000)

This revision stores the cells in one `std::bitset<maxWidth * maxHeight>`.
`isFilled` and `clearCell` address bit `y * m_width + x`, while `fillCell`
computes its bit position as `y * maxWidth + x`; the transcription keeps
both strides exactly as written. -/

/-- The bitset `Board` of src/unnamed/part_000. -/
structure BitBoard where
  width : Int
  height : Int
  cells : Nat
  columnHeights : List Int
  roof : Int
  filledCount : Int
deriving DecidableEq, Repr

/-- Popcount of the occupancy bitmap of a part_000 board: the
`std::bitset<maxWidth * maxHeight>`, 1280 bits. -/
def BitBoard.popcount (b : BitBoard) : Nat :=
  natPopcount 1280 b.cells

/-- `Board::Board` (part_000 lines 8-20); `none` models the throw. -/
def mkBitBoard (w h : Int) : Option BitBoard :=
  if w > maxWidth ∨ h > maxHeight ∨ w < 4 ∨ h < 4 then none
  else some
    { width := w, height := h, cells := 0
      columnHeights := List.replicate 32 0, roof := 0, filledCount := 0 }

/-- `std::bitset::reset(i)`: clear bit `i`. -/
def resetBit (c : Nat) (i : Nat) : Nat :=
  if c.testBit i then c ^^^ (1 <<< i) else c

/-- `Board::isFilled` (part_000 lines 44-50): tests bit `y * m_width + x`. -/
def BitBoard.isFilled (b : BitBoard) (x y : Int) : Bool :=
  if x < 0 ∨ x ≥ b.width ∨ y < 0 ∨ y ≥ b.height then false
  else b.cells.testBit (y * b.width + x).toNat

/-- `Board::fillCell` (part_000 lines 52-74): the bit position is computed
with stride `maxWidth` (`y * maxWidth + x`, line 56) although `isFilled`
reads with stride `m_width`. -/
def BitBoard.fillCell (b : BitBoard) (x y : Int) : BitBoard :=
  if x < 0 ∨ x ≥ b.width ∨ y < 0 ∨ y ≥ b.height then b
  else if b.isFilled x y then b
  else
    let cells := b.cells ||| (1 <<< (y * maxWidth + x).toNat)
    if y + 1 > b.columnHeights.getD x.toNat 0 then
      { b with
        cells := cells
        columnHeights := b.columnHeights.set x.toNat (y + 1)
        roof := max b.roof (y + 1)
        filledCount := b.filledCount + 1 }
    else
      { b with cells := cells, filledCount := b.filledCount + 1 }

/-- `updateHeights()` (part_000 lines 177-191): recompute the column heights
of `[0, width)` and the roof, reading cells through `isFilled`. -/
def BitBoard.updateHeights (b : BitBoard) : BitBoard :=
  let colTop : Nat → Int := fun x =>
    match (List.range b.height.toNat).reverse.find? (fun y => b.isFilled x y) with
    | some y => (y : Int) + 1
    | none => 0
  let step := fun (acc : List Int × Int) (x : Nat) =>
    let t := colTop x
    (acc.1.set x t, max acc.2 t)
  let res := (List.range b.width.toNat).foldl step (b.columnHeights, 0)
  { b with columnHeights := res.1, roof := res.2 }

/-- `Board::clearCell` (part_000 lines 76-107): resets bit
`y * m_width + x` after the `isFilled` guard. -/
def BitBoard.clearCell (b : BitBoard) (x y : Int) : BitBoard :=
  if x < 0 ∨ x ≥ b.width ∨ y < 0 ∨ y ≥ b.height then b
  else if ¬ b.isFilled x y then b
  else
    let b1 := { b with
      cells := resetBit b.cells (y * b.width + x).toNat
      filledCount := b.filledCount - 1 }
    if y + 1 = b.columnHeights.getD x.toNat 0 then
      let newHeight : Int :=
        match (List.range y.toNat).reverse.find? (fun i => b1.isFilled x i) with
        | some i => (i : Int) + 1
        | none => 0
      let b2 := { b1 with columnHeights := b1.columnHeights.set x.toNat newHeight }
      if y + 1 = b.roof then b2.updateHeights else b2
    else b1

/-- `Board::isRowFilled` (part_000 lines 155-166): every cell of the row
filled according to `isFilled`. -/
def BitBoard.isRowFilled (b : BitBoard) (row : Int) : Bool :=
  if row < 0 ∨ row ≥ b.height then false
  else (List.range b.width.toNat).all fun x => b.isFilled (x : Int) row

/-- The row shift of `Board::clearFilledRows` (part_000 lines 122-136): for
`i` in `[y, height-1)` copy row `i+1` onto row `i` cell by cell through
`fillCell`/`clearCell`, then clear the top row through `clearCell`. -/
def BitBoard.shiftDownFrom (b : BitBoard) (y : Nat) : BitBoard :=
  let copyRow := fun (b : BitBoard) (i : Nat) =>
    (List.range b.width.toNat).foldl
      (fun (b : BitBoard) (x : Nat) =>
        if b.isFilled (x : Int) ((i : Int) + 1) then b.fillCell (x : Int) (i : Int)
        else b.clearCell (x : Int) (i : Int))
      b
  let shifted := (List.range (b.height.toNat - 1 - y)).foldl
    (fun (b : BitBoard) (k : Nat) => copyRow b (y + k)) b
  (List.range shifted.width.toNat).foldl
    (fun (b : BitBoard) (x : Nat) => b.clearCell (x : Int) (b.height - 1)) shifted

/-- The scan loop of `Board::clearFilledRows` (part_000 lines 115-145); the
`--y` of the source is modelled by recursing at the same `y`, and after each
removal `m_filledCellCount -= m_width` is applied on top of the counter
updates already performed by the `fillCell`/`clearCell` calls of the shift. -/
def bitClearLoop : BitBoard → Nat → Int → Nat → BitBoard × Int
  | b, _, cleared, 0 => (b, cleared)
  | b, y, cleared, fuel + 1 =>
    if y < b.height.toNat then
      if b.isRowFilled (y : Int) then
        let b1 := b.shiftDownFrom y
        let b2 := { b1 with filledCount := b1.filledCount - b1.width }
        bitClearLoop b2 y (cleared + 1) fuel
      else
        bitClearLoop b (y + 1) cleared fuel
    else (b, cleared)

/-- `Board::clearFilledRows` (part_000 lines 115-153). -/
def BitBoard.clearFilledRows (b : BitBoard) : BitBoard × Int :=
  let res := bitClearLoop b 0 0 (2 * b.height.toNat + 1)
  if res.2 > 0 then (res.1.updateHeights, res.2) else res

/-! ### GameState (src/core/game_state.cpp)

The rotation system is the SRS (the only implementation); the board is the
row-bitmap Board of src/core/tetris_board.cpp.  `m_currentPiece` caches only
data derived from its `PieceState`, so the embedding stores the state. -/

/-- `class GameState` (game_state.hpp). -/
structure GameState where
  board : RowsBoard
  currentPiece : PieceState
  heldPiece : Option PieceType
  holdUsed : Bool
  nextPieces : List PieceType
  linesCleared : Int
  gameOver : Bool
deriving DecidableEq, Repr

/-- The cell test shared by `GameState::isValidState`, the validity loop of
`applyMove` (game_state.cpp lines 129-136) and `PathSearch::canPlacePiece`:
in bounds and not filled. -/
def cellFree (b : RowsBoard) (c : Position) : Bool :=
  decide (0 ≤ c.xPos) && decide (c.xPos < b.width) &&
  decide (0 ≤ c.yPos) && decide (c.yPos < b.height) &&
  !(b.isFilled c.xPos c.yPos)

/-- `GameState::isValidState` (game_state.cpp lines 415-427): every absolute
cell of the piece is in bounds and on an empty board cell. -/
def isValidState (b : RowsBoard) (s : PieceState) : Bool :=
  (absoluteFilledCells s).all fun c => cellFree b c

/-- `GameState::checkCollision()` (game_state.cpp lines 276-283): some cell
of the *current* piece is out of bounds or filled. -/
def checkCollisionCur (s : GameState) : Bool :=
  (absoluteFilledCells s.currentPiece).any fun c => !(cellFree s.board c)

/-- `GameState::spawnPiece` (game_state.cpp lines 162-190): install the
SRS initial state as the current piece; if it collides, set `gameOver` and
report failure. -/
def spawnPiece (s : GameState) (t : PieceType) : GameState × Bool :=
  let st := srsInitialState t s.board.width s.board.height
  let s1 := { s with currentPiece := st }
  if isValidState s1.board st then (s1, true)
  else ({ s1 with gameOver := true }, false)

/-- `GameState::spawnNextPiece` (game_state.cpp lines 192-201): pop the head
of the queue and spawn it; fail when the queue is empty. -/
def spawnNextPiece (s : GameState) : GameState × Bool :=
  match s.nextPieces with
  | [] => (s, false)
  | t :: rest => spawnPiece { s with nextPieces := rest } t

/-- `GameState::holdCurrentPiece` (game_state.cpp lines 203-235).  On spawn
failure only the hold slot is restored; the replaced current piece and the
`gameOver` flag set by `spawnPiece` are left as the failed spawn produced
them. -/
def holdCurrentPiece (s : GameState) : GameState × Bool :=
  if s.holdUsed then (s, false)
  else
    let currentType := s.currentPiece.type
    match s.heldPiece with
    | some heldType =>
      let s1 := { s with heldPiece := some currentType }
      let res := spawnPiece s1 heldType
      if res.2 then ({ res.1 with holdUsed := true }, true)
      else ({ res.1 with heldPiece := some heldType }, false)
    | none =>
      let s1 := { s with heldPiece := some currentType }
      let res := spawnNextPiece s1
      if res.2 then ({ res.1 with holdUsed := true }, true)
      else ({ res.1 with heldPiece := none }, false)

/-- `GameState::lockCurrentPiece` (game_state.cpp lines 146-160). -/
def lockCurrentPiece (s : GameState) : GameState × Int :=
  let b1 := (absoluteFilledCells s.currentPiece).foldl
    (fun (b : RowsBoard) (c : Position) => b.fillCell c.xPos c.yPos) s.board
  let res := b1.clearFilledRows
  ({ s with
      board := res.1
      linesCleared := s.linesCleared + res.2
      holdUsed := false }, res.2)

/-- The candidate state computed by the `switch` of the first
`GameState::applyMove` revision (game_state.cpp lines 27-119) for non-Hold
moves.  `none` models the non-terminating HardDrop loop (lines 97-106): its
condition `!checkCollision()` reads the *unchanged* current piece, so the
loop body runs either zero times or forever.  The wall-kick lookups pass
`fromRotation` as the inverse rotation applied to the already-updated
rotation, exactly as in the source (lines 46-58, 64-77, 82-95). -/
def candidateStateV1 (s : GameState) (m : Move) : Option PieceState :=
  let st := s.currentPiece
  let pos := st.position
  match m.type with
  | .Left => some { st with position := ⟨pos.xPos - 1, pos.yPos⟩ }
  | .Right => some { st with position := ⟨pos.xPos + 1, pos.yPos⟩ }
  | .Down => some { st with position := ⟨pos.xPos, pos.yPos - 1⟩ }
  | .Up => some { st with position := ⟨pos.xPos, pos.yPos + 1⟩ }
  | .RotateClockwise =>
    let newRot := rotateClockwise st.rotation
    let kicks := srsClockwiseKicks st.type (rotateCounterClockwise newRot)
    let newPos :=
      if 0 ≤ m.wallKickIndex ∧ m.wallKickIndex < (kicks.length : Int) then
        let off := kicks.getD m.wallKickIndex.toNat (0, 0)
        ⟨pos.xPos + off.1, pos.yPos + off.2⟩
      else pos
    some { st with rotation := newRot, position := newPos }
  | .RotateCounterClockwise =>
    let newRot := rotateCounterClockwise st.rotation
    let kicks := srsCounterClockwiseKicks st.type (rotateClockwise newRot)
    let newPos :=
      if 0 ≤ m.wallKickIndex ∧ m.wallKickIndex < (kicks.length : Int) then
        let off := kicks.getD m.wallKickIndex.toNat (0, 0)
        ⟨pos.xPos + off.1, pos.yPos + off.2⟩
      else pos
    some { st with rotation := newRot, position := newPos }
  | .Rotate180 =>
    let newRot := rotate180 st.rotation
    let kicks := srs180Kicks st.type (rotate180 newRot)
    let newPos :=
      if 0 ≤ m.wallKickIndex ∧ m.wallKickIndex < (kicks.length : Int) then
        let off := kicks.getD m.wallKickIndex.toNat (0, 0)
        ⟨pos.xPos + off.1, pos.yPos + off.2⟩
      else pos
    some { st with rotation := newRot, position := newPos }
  | .HardDrop =>
    if checkCollisionCur s then some { st with position := ⟨pos.xPos, pos.yPos + 1⟩ }
    else none
  | .SoftDrop => some { st with position := ⟨pos.xPos, pos.yPos - 1⟩ }
  | .Hold => none

/-- The first `GameState::applyMove` revision (game_state.cpp lines 22-144):
candidate state, validity check against the board, commit or restore.
`none` models the diverging HardDrop loop. -/
def applyMoveV1 (s : GameState) (m : Move) : Option (GameState × Bool) :=
  if s.gameOver then some (s, false)
  else if m.type = .Hold then
    if s.holdUsed then some (s, false) else some (holdCurrentPiece s)
  else
    match candidateStateV1 s m with
    | none => none
    | some st =>
      if isValidState s.board st then some ({ s with currentPiece := st }, true)
      else some (s, false)

/-- The HardDrop descent of the second `applyMove` revision (game_state.cpp
lines 384-390): step down while the piece one row below is valid.  `fuel`
bounds the descent; the C++ loop terminates whenever some lower translate is
invalid, so any fuel of at least `height + 5` reproduces it on the verified
scenarios. -/
def hardDropLoopV2 (b : RowsBoard) (st : PieceState) : Position → Nat → Position
  | pos, 0 => pos
  | pos, fuel + 1 =>
    let below : Position := ⟨pos.xPos, pos.yPos - 1⟩
    if isValidState b { st with position := below } then hardDropLoopV2 b st below fuel
    else pos

/-- The second `GameState::applyMove` revision (game_state.cpp lines
308-413); it differs from the first only in the HardDrop case, which tests
the candidate one row below instead of the unchanged current piece. -/
def applyMoveV2 (s : GameState) (m : Move) (fuel : Nat) : GameState × Bool :=
  if s.gameOver then (s, false)
  else if m.type = .Hold then
    if s.holdUsed then (s, false) else holdCurrentPiece s
  else
    let st :=
      match m.type with
      | .HardDrop =>
        let pos := hardDropLoopV2 s.board s.currentPiece s.currentPiece.position fuel
        { s.currentPiece with position := pos }
      | _ => (candidateStateV1 s m).getD s.currentPiece
    if isValidState s.board st then ({ s with currentPiece := st }, true)
    else (s, false)

/-! ### Placement search (src/unnamed/part_006, path_search.cpp)

The search reads the game state only through its board; the embedding
passes the board directly. -/

/-- `SearchAlgorithm::Config` (search_algorithm.hpp). -/
structure SearchConfig where
  allowRotate180 : Bool := false
  allowHardDrop : Bool := true
  allowSoftDrop : Bool := true
  is20G : Bool := false
  lastRotationOnly : Bool := false
deriving DecidableEq, Repr

/-- `PathSearch::canPlacePiece` (part_006 lines 143-154): all absolute cells
in bounds and not colliding. -/
def canPlacePiece (b : RowsBoard) (p : PieceState) : Bool :=
  (absoluteFilledCells p).all fun c => cellFree b c

/-- The binary-search loop of `PathSearch::applyHardDrop` (part_006 lines
268-289) over the drop distance; `low`/`high` are non-negative `int32_t`.
The structural recursion runs on the interval length `high - low`, which the
loop shrinks by at least one per iteration, so the fuel is never binding. -/
def hardDropSearchGo (b : RowsBoard) (st : PieceState) (pos : Position) :
    Nat → Nat → Nat → Nat
  | low, _, 0 => low
  | low, high, fuel + 1 =>
    if low < high then
      let mid := low + (high - low) / 2
      if canPlacePiece b { st with position := ⟨pos.xPos, pos.yPos - (mid : Int)⟩ } then
        hardDropSearchGo b st pos (mid + 1) high fuel
      else
        hardDropSearchGo b st pos low mid fuel
    else low

/-- The binary search of `PathSearch::applyHardDrop` from `low = 0`,
`high = board height`. -/
def hardDropSearch (b : RowsBoard) (st : PieceState) (pos : Position)
    (low high : Nat) : Nat :=
  hardDropSearchGo b st pos low high (high - low)

/-- `PathSearch::applyHardDrop` (part_006 lines 263-299): binary search for
the largest placeable drop, then move down by `low - 1` when `low > 0`. -/
def applyHardDropBS (b : RowsBoard) (p : PieceState) : PieceState :=
  let low := hardDropSearch b p p.position 0 b.height.toNat
  if low > 0 then
    { p with position := ⟨p.position.xPos, p.position.yPos - ((low - 1 : Nat) : Int)⟩ }
  else p

/-- `PathSearch::applyMove` (part_006 lines 179-220): pure translations and
rotations (no wall-kick lookup); HardDrop delegates to `applyHardDrop`;
other move types fall through to the default branch and leave the piece
unchanged. -/
def searchApplyMove (b : RowsBoard) (p : PieceState) (m : Move) : PieceState :=
  match m.type with
  | .Left => { p with position := ⟨p.position.xPos - 1, p.position.yPos⟩ }
  | .Right => { p with position := ⟨p.position.xPos + 1, p.position.yPos⟩ }
  | .Down => { p with position := ⟨p.position.xPos, p.position.yPos - 1⟩ }
  | .Up => { p with position := ⟨p.position.xPos, p.position.yPos + 1⟩ }
  | .RotateClockwise => { p with rotation := rotateClockwise p.rotation }
  | .RotateCounterClockwise => { p with rotation := rotateCounterClockwise p.rotation }
  | .Rotate180 => { p with rotation := rotate180 p.rotation }
  | .HardDrop => applyHardDropBS b p
  | _ => p

/-- `PathSearch::isValidMove` (part_006 lines 170-177). -/
def isValidMove (b : RowsBoard) (p : PieceState) (m : Move) : Bool :=
  canPlacePiece b (searchApplyMove b p m)

/-- `PathSearch::isAtLandingPosition` (part_006 lines 222-235): the piece
one row below cannot be placed. -/
def isAtLandingPosition (b : RowsBoard) (p : PieceState) : Bool :=
  !(canPlacePiece b { p with position := ⟨p.position.xPos, p.position.yPos - 1⟩ })

/-- `PathSearch::generatePossibleMoves` (part_006 lines 237-261). -/
def generatePossibleMoves (cfg : SearchConfig) : List Move :=
  [⟨.Left, -1⟩, ⟨.Right, -1⟩]
    ++ (if cfg.allowSoftDrop then [⟨.Down, -1⟩] else [])
    ++ (if cfg.allowHardDrop then [⟨.HardDrop, -1⟩] else [])
    ++ [⟨.RotateClockwise, -1⟩, ⟨.RotateCounterClockwise, -1⟩]
    ++ (if cfg.allowRotate180 then [⟨.Rotate180, -1⟩] else [])

/-! ### T-spin detection (part_006 lines 301-383) -/

/-- The `isCellOccupied` lambda of `detectTSpin` (part_006 lines 317-324):
out of bounds counts as occupied, otherwise the board cell. -/
def isCellOccupied (b : RowsBoard) (x y : Int) : Bool :=
  if x < 0 ∨ x ≥ b.width ∨ y < 0 ∨ y ≥ b.height then true
  else b.isFilled x y

/-- The corner classification of `detectTSpin` (part_006 lines 339-382),
as a function of the four corner-occupancy flags `A`, `B`, `C`, `D` and the
piece rotation: `occupiedCorners >= 3` gives a full T-spin, exactly two
occupied corners give a mini T-spin when they are the rotation-specific
pair, everything else gives none. -/
def detectTSpinFromCorners (a bb c d : Bool) (rot : Rotation) : Int :=
  let occupiedCorners : Int := (cond a 1 0) + (cond bb 1 0) + (cond c 1 0) + (cond d 1 0)
  if occupiedCorners ≥ 3 then 1
  else if occupiedCorners = 2 then
    let miniTspin :=
      match rot with
      | .R0 => a && bb
      | .R90 => bb && d
      | .R180 => c && d
      | .R270 => a && c
    if miniTspin then 2 else 0
  else 0

/-- `PathSearch::detectTSpin` (part_006 lines 301-383): `0` unless the
piece is a `T` and the last move was a rotation; corners are the four
diagonal neighbours of the pivot `(px, py)`. -/
def detectTSpin (b : RowsBoard) (p : PieceState) (lastMoveWasRotation : Bool) : Int :=
  if p.type ≠ .T ∨ lastMoveWasRotation = false then 0
  else
    let px := p.position.xPos
    let py := p.position.yPos
    detectTSpinFromCorners
      (isCellOccupied b (px - 1) (py + 1))
      (isCellOccupied b (px + 1) (py + 1))
      (isCellOccupied b (px - 1) (py - 1))
      (isCellOccupied b (px + 1) (py - 1))
      p.rotation

/-! ### The BFS of `PathSearch::findLandingPositions` (part_006 lines 16-88) -/

/-- `PathSearch::SearchNode` (path_search.hpp): the C++ node stores a parent
pointer and `reconstructPath` walks the chain collecting `lastMove` of every
non-root node; `path` stores that reconstructed move list directly (root:
empty), so `reconstructPath node = node.path`.  `depth` is the stored node
depth of the part_006 revision. -/
structure SearchNode where
  state : PieceState
  lastMove : Move
  path : List Move
  depth : Nat
deriving DecidableEq, Repr

/-- `LandingPosition` (search_algorithm.hpp), restricted to the fields the
search fills in: the landed piece state, the move path and the T-spin type. -/
structure LandingPosition where
  state : PieceState
  path : List Move
  tSpinType : Int
deriving DecidableEq, Repr

/-- `lastMoveWasRotation` (part_006 lines 53-57): the path is non-empty and
its last move is a rotation. -/
def lastMoveIsRotation (path : List Move) : Bool :=
  match path.getLast? with
  | some m =>
    decide (m.type = .RotateClockwise) || decide (m.type = .RotateCounterClockwise) ||
      decide (m.type = .Rotate180)
  | none => false

/-- The BFS loop of `findLandingPositions` (part_006 lines 34-85).  The
queue, visited set and output are explicit; `trace` additionally records
every dequeued node in order (observational instrumentation only - the C++
has no such output).  `fuel` bounds the number of dequeues; every enqueue
inserts a fresh state into `visited`, so the C++ loop performs finitely many
iterations and any sufficiently large fuel reproduces it. -/
def findLandingAux (b : RowsBoard) (cfg : SearchConfig) (maxDepth : Nat) :
    List SearchNode → List PieceState → List LandingPosition → List SearchNode →
    Nat → List LandingPosition × List SearchNode
  | [], _, out, trace, _ => (out, trace)
  | _, _, out, trace, 0 => (out, trace)
  | node :: queue, visited, out, trace, fuel + 1 =>
    let trace := trace ++ [node]
    if maxDepth > 0 ∧ node.depth ≥ maxDepth then
      findLandingAux b cfg maxDepth queue visited out trace fuel
    else
      let out :=
        if isAtLandingPosition b node.state then
          out ++ [{ state := node.state
                    path := node.path
                    tSpinType := detectTSpin b node.state (lastMoveIsRotation node.path) }]
        else out
      let expand := fun (acc : List SearchNode × List PieceState) (m : Move) =>
        if isValidMove b node.state m then
          let newState := searchApplyMove b node.state m
          if acc.2.contains newState then acc
          else
            (acc.1 ++ [{ state := newState
                         lastMove := m
                         path := node.path ++ [m]
                         depth := node.depth + 1 }],
             acc.2 ++ [newState])
        else acc
      let res := (generatePossibleMoves cfg).foldl expand (queue, visited)
      findLandingAux b cfg maxDepth res.1 res.2 out trace fuel

/-- `PathSearch::findLandingPositions` (part_006 lines 16-88): BFS from the
input piece (root `lastMove` is the `Down` sentinel, root depth 0, the root
state pre-inserted into the visited set). -/
def findLandingPositions (b : RowsBoard) (cfg : SearchConfig) (p : PieceState)
    (maxDepth : Nat) (fuel : Nat) : List LandingPosition :=
  (findLandingAux b cfg maxDepth [{ state := p, lastMove := ⟨.Down, -1⟩, path := [], depth := 0 }]
    [p] [] [] fuel).1

/-! ### Rotation-system registry (src/rotation_systems/rule_factory.cpp) -/

/-- The only rotation system implemented in the repository. -/
inductive RotationSystemImpl
  | SRS
deriving DecidableEq, Repr

/-- `RuleFactory::initialize` (rule_factory.cpp lines 14-22): the line that
would register the built-in SRS (`registerRotationSystem("SRS", ...)`) is
commented out, so the registry produced by initialisation is empty. -/
def ruleFactoryInitialRegistry : List (String × RotationSystemImpl) := []

/-- `RuleFactory::createRotationSystem` (rule_factory.cpp lines 28-37):
exact, case-sensitive name lookup; a found prototype is cloned
(`SRS::clone` returns a fresh SRS), a missing name yields nullptr. -/
def createRotationSystem (registry : List (String × RotationSystemImpl))
    (name : String) : Option RotationSystemImpl :=
  match registry.find? (fun e => e.1 == name) with
  | some e => some e.2
  | none => none

/-! ### Concrete fixtures used by the verification scenarios -/

/-- The empty 10x20 row-bitmap board (the value of `Board(10, 20)`). -/
def rows10 : RowsBoard :=
  { width := 10, height := 20, rows := List.replicate 40 0
    columnHeights := List.replicate 32 0, roof := 0, filledCount := 0
    fullRowMask := 1023 }

/-- The empty 4x4 row-bitmap board (the value of `Board(4, 4)`). -/
def rows4 : RowsBoard :=
  { width := 4, height := 4, rows := List.replicate 40 0
    columnHeights := List.replicate 32 0, roof := 0, filledCount := 0
    fullRowMask := 15 }

/-- The empty 10x20 bitset board of part_000 (the value of `Board(10, 20)`). -/
def bits10 : BitBoard :=
  { width := 10, height := 20, cells := 0
    columnHeights := List.replicate 32 0, roof := 0, filledCount := 0 }

/-- `rows10` with every cell of row `y = 0` filled through `fillCell`. -/
def rows10Row0 : RowsBoard :=
  (List.range 10).foldl (fun b x => b.fillCell (x : Int) 0) rows10

/-- `bits10` with every cell of row `y = 0` filled through `fillCell`. -/
def bits10Row0 : BitBoard :=
  (List.range 10).foldl (fun b x => b.fillCell (x : Int) 0) bits10

/-- The claim-C1 / C8 hold-failure state: empty 10x20 board, current piece
`T`, held piece `I`, hold not yet used. -/
def gsHoldCX : GameState :=
  { board := rows10, currentPiece := ⟨.T, ⟨3, 1⟩, .R0⟩, heldPiece := some .I
    holdUsed := false, nextPieces := [], linesCleared := 0, gameOver := false }

/-- The state `gsHoldCX` is left in by the failed hold: the current piece has
been replaced by the failed spawn of `I` at `(3, 19)` and `gameOver` is set;
only the hold slot was restored. -/
def gsHoldCXPost : GameState :=
  { board := rows10, currentPiece := ⟨.I, ⟨3, 19⟩, .R0⟩, heldPiece := some .I
    holdUsed := false, nextPieces := [], linesCleared := 0, gameOver := true }

/-- Scenario d of the spec: empty 10x20 board, O-piece at `(4, 19)`. -/
def gsO19 : GameState :=
  { board := rows10, currentPiece := ⟨.O, ⟨4, 19⟩, .R0⟩, heldPiece := none
    holdUsed := false, nextPieces := [], linesCleared := 0, gameOver := false }

/-- Empty 10x20 board with an O-piece at `(4, 10)`, a state in which the
current piece collides with nothing. -/
def gsO10 : GameState :=
  { board := rows10, currentPiece := ⟨.O, ⟨4, 10⟩, .R0⟩, heldPiece := none
    holdUsed := false, nextPieces := [], linesCleared := 0, gameOver := false }

/-- Scenario c of the spec: empty 10x20 board, I-piece at `(0, 10)`, `R0`. -/
def gsI10 : GameState :=
  { board := rows10, currentPiece := ⟨.I, ⟨0, 10⟩, .R0⟩, heldPiece := none
    holdUsed := false, nextPieces := [], linesCleared := 0, gameOver := false }

/-- Root piece of the depth-limited BFS run: an O-piece resting on the
floor of the empty 4x4 board. -/
def searchRootO : PieceState := ⟨.O, ⟨0, -1⟩, .R0⟩

/-- The depth-limited BFS run: `findLandingPositions` on the empty 4x4
board with the default configuration, `maxDepth = 1`, fuel 100 (the run
dequeues 4 nodes, so the fuel is not binding). -/
def searchRunC6 : List LandingPosition × List SearchNode :=
  findLandingAux rows4 {} 1
    [{ state := searchRootO, lastMove := ⟨.Down, -1⟩, path := [], depth := 0 }]
    [searchRootO] [] [] 100

/-- The depth-1 node the BFS dequeues after rotating the root clockwise. -/
def skippedNodeC6 : SearchNode :=
  { state := ⟨.O, ⟨0, -1⟩, .R90⟩, lastMove := ⟨.RotateClockwise, -1⟩
    path := [⟨.RotateClockwise, -1⟩], depth := 1 }

/-! ### Claim-side T-spin classification

`tSpinTypeClaim` is stated from the words of claim C4 and the spec (not
from the source), to be compared with the transcribed `detectTSpin`. -/

/-- From the claim: a corner counts as occupied when it lies outside the
board or the board cell is filled. -/
def claimCornerOccupied (bd : RowsBoard) (c : Position) : Bool :=
  !(decide (0 ≤ c.xPos) && decide (c.xPos < bd.width) &&
    decide (0 ≤ c.yPos) && decide (c.yPos < bd.height)) || bd.isFilled c.xPos c.yPos

/-- From the claim: the four diagonal corners `A, B, C, D` of the pivot
`(px, py)`, in the order `A = (px-1, py+1)`, `B = (px+1, py+1)`,
`C = (px-1, py-1)`, `D = (px+1, py-1)`. -/
def claimCorners (p : PieceState) : List Position :=
  [⟨p.position.xPos - 1, p.position.yPos + 1⟩, ⟨p.position.xPos + 1, p.position.yPos + 1⟩,
   ⟨p.position.xPos - 1, p.position.yPos - 1⟩, ⟨p.position.xPos + 1, p.position.yPos - 1⟩]

/-- From the claim: the rotation-specific front pair is occupied
(R0: A and B; R90: B and D; R180: C and D; R270: A and C). -/
def claimFrontPairOccupied (bd : RowsBoard) (p : PieceState) : Bool :=
  let occ := fun i => claimCornerOccupied bd ((claimCorners p).getD i ⟨0, 0⟩)
  match p.rotation with
  | .R0 => occ 0 && occ 1
  | .R90 => occ 1 && occ 3
  | .R180 => occ 2 && occ 3
  | .R270 => occ 0 && occ 2

/-- Claim C4 as a function: the T-spin type is 0 for non-T pieces; for a T
piece it is 0 when the last move was not a rotation, 1 (Regular) when at
least 3 corners are occupied, 2 (Mini) when exactly 2 corners are occupied
and they are the front pair, and 0 otherwise. -/
def tSpinTypeClaim (bd : RowsBoard) (p : PieceState) (lastMoveWasRotation : Bool) : Int :=
  if p.type ≠ .T then 0
  else if ¬ lastMoveWasRotation then 0
  else
    let k := ((claimCorners p).filter (fun c => claimCornerOccupied bd c)).length
    if 3 ≤ k then 1
    else if k = 2 ∧ claimFrontPairOccupied bd p then 2
    else 0

/-! ## Theorems -/

/-- `Board(10, 20)` (row-bitmap revision) succeeds and yields `rows10`. -/
theorem mkRowsBoard_10_20 : mkRowsBoard 10 20 = some rows10 := by decide

/-- `Board(4, 4)` (row-bitmap revision) succeeds and yields `rows4`. -/
theorem mkRowsBoard_4_4 : mkRowsBoard 4 4 = some rows4 := by decide

/-- part_000 `Board(10, 20)` succeeds and yields `bits10`. -/
theorem mkBitBoard_10_20 : mkBitBoard 10 20 = some bits10 := by decide

/-- C2.  Evaluation of the part_000 `Board` at the failing call sequence
`fillCell(0, 1); fillCell(0, 1)` on a fresh 10x20 board: `fillCell` writes
bit `y * maxWidth + x` while its `isFilled` guard reads bit
`y * m_width + x`, so the second, supposedly idempotent call increments
`filledCount` again and the cached count (2) no longer equals the popcount
of the occupancy bitmap (1).  The same sequence on the row-bitmap `Board`
of src/core/tetris_board.cpp keeps the caches coherent. -/
theorem bitBoard_fill_count_popcount_mismatch :
    ((bits10.fillCell 0 1).fillCell 0 1).filledCount = 2 ∧
    ((bits10.fillCell 0 1).fillCell 0 1).popcount = 1 ∧
    ((rows10.fillCell 0 1).fillCell 0 1).filledCount = 1 ∧
    ((rows10.fillCell 0 1).fillCell 0 1).popcount = 1 ∧
    ((rows10.fillCell 0 1).fillCell 0 1).roof = 2 ∧
    ((rows10.fillCell 0 1).fillCell 0 1).columnHeights.getD 0 0 = 2 := by decide

/-- C3.  The spec line-clear scenario (10x20 board, row `y = 0` filled via
`fillCell`, then `clearFilledRows`).  On the row-bitmap `Board` of
src/core/tetris_board.cpp the claim holds: one row cleared, `filledCount`
0, `roof` 0.  On the part_000 `Board` the shift copies rows through
`fillCell`/`clearCell`, which already maintain `filledCount`, and then the
loop subtracts `m_width` again, leaving `filledCount = -10`. -/
theorem clearFilledRows_scenario :
    rows10Row0.isRowFilled 0 = true ∧
    rows10Row0.clearFilledRows.2 = 1 ∧
    rows10Row0.clearFilledRows.1.filledCount = 0 ∧
    rows10Row0.clearFilledRows.1.roof = 0 ∧
    rows10Row0.clearFilledRows.1.popcount = 0 ∧
    bits10Row0.isRowFilled 0 = true ∧
    bits10Row0.filledCount = 10 ∧
    bits10Row0.clearFilledRows.2 = 1 ∧
    bits10Row0.clearFilledRows.1.popcount = 0 ∧
    bits10Row0.clearFilledRows.1.filledCount = -10 := by decide

/-- C5.  Evaluation of both `applyMove` revisions at the spec hard-drop
scenario (empty 10x20 board, O-piece at `(4, 19)`): the engine piece model
gives the O-piece the absolute cells `(6, 20)` and `(4, 21)`, which are
already out of bounds, so both revisions return `false` and leave the piece
at `(4, 19)` instead of dropping it to `(4, 0)`.  For the O-piece at
`(4, 10)`, whose cells collide with nothing, the first revision's HardDrop
loop `while (!checkCollision())` tests the unchanged current piece and
never terminates (modelled by `none`). -/
theorem hardDrop_scenario :
    applyMoveV1 gsO19 ⟨.HardDrop, -1⟩ = some (gsO19, false) ∧
    applyMoveV2 gsO19 ⟨.HardDrop, -1⟩ 64 = (gsO19, false) ∧
    absoluteFilledCells gsO19.currentPiece = [⟨6, 20⟩, ⟨4, 21⟩] ∧
    applyMoveV1 gsO10 ⟨.HardDrop, -1⟩ = none := by decide

/-- C9.  Evaluation of the rotation-system registry after initialisation:
`RuleFactory::initialize` has its `registerRotationSystem("SRS", ...)` line
commented out, so the lookup for the exact name `"SRS"` finds nothing. -/
theorem ruleFactory_srs_lookup :
    createRotationSystem ruleFactoryInitialRegistry "SRS" = none := by decide

/-- C10.  Evaluation of the part_000 `Board` write/read round-trip at the
failing input: on a fresh 10x20 board, `fillCell(0, 1)` sets bit
`1 * maxWidth + 0 = 32` but `isFilled(0, 1)` reads bit
`1 * m_width + 0 = 10`, so the freshly filled cell reads as empty (while
the cell does land in the bitmap, as the popcount shows).  The clear
direction and row 0, where both strides agree, behave as claimed. -/
theorem bitBoard_fill_isFilled_roundtrip :
    (bits10.fillCell 0 1).isFilled 0 1 = false ∧
    (bits10.fillCell 0 1).popcount = 1 ∧
    (bits10.fillCell 3 0).isFilled 3 0 = true ∧
    ((bits10.fillCell 3 0).clearCell 3 0).isFilled 3 0 = false := by decide

/-- C1 counterexample.  `applyMove(Hold)` on `gsHoldCX` (empty 10x20 board,
current piece `T`, held piece `I`, hold unused) returns `false` yet replaces
the current piece with the failed spawn of `I` at `(3, 19)` and sets
`gameOver`, refuting "whenever it returns false the current piece is
unchanged". -/
theorem applyMove_hold_mutates_on_failure :
    applyMoveV1 gsHoldCX ⟨.Hold, -1⟩ = some (gsHoldCXPost, false) ∧
    gsHoldCXPost.currentPiece ≠ gsHoldCX.currentPiece ∧
    gsHoldCX.gameOver = false ∧ gsHoldCXPost.gameOver = true := by decide

/-- C8 counterexample.  `holdCurrentPiece` on `gsHoldCX` returns `false`
and restores the prior hold value, but the current piece has been replaced
by the failed spawn and the `gameOver` flag has been set, refuting "with no
other observable change". -/
theorem hold_failure_observable_change :
    holdCurrentPiece gsHoldCX = (gsHoldCXPost, false) ∧
    gsHoldCXPost.heldPiece = gsHoldCX.heldPiece ∧
    gsHoldCXPost.currentPiece ≠ gsHoldCX.currentPiece ∧
    gsHoldCX.gameOver = false ∧ gsHoldCXPost.gameOver = true := by decide

/-- C6 counterexample.  In the depth-limited BFS run `searchRunC6`
(`maxDepth = 1 > 0`), the node `skippedNodeC6` of depth `1 ≥ maxDepth` is
dequeued (it appears in the trace of processed nodes) and its piece moved
one step down would collide, yet no landing position for its state is
recorded: the depth cutoff `continue` skips the landing check as well as
the successor expansion. -/
theorem depth_limited_landing_not_recorded :
    skippedNodeC6 ∈ searchRunC6.2 ∧
    skippedNodeC6.depth ≥ 1 ∧
    isAtLandingPosition rows4 skippedNodeC6.state = true ∧
    searchRunC6.1.all (fun l => l.state ≠ skippedNodeC6.state) = true ∧
    searchRunC6.1.length = 1 := by decide

/-- Counter-clockwise inverts clockwise (used by the wall-kick lookup in
`applyMove`, which recovers `fromRotation` from the updated rotation). -/
theorem ccw_cw (r : Rotation) : rotateCounterClockwise (rotateClockwise r) = r := by
  cases r <;> rfl

/-- Clockwise inverts counter-clockwise. -/
theorem cw_ccw (r : Rotation) : rotateClockwise (rotateCounterClockwise r) = r := by
  cases r <;> rfl

/-- `rotate180` is an involution. -/
theorem r180_r180 (r : Rotation) : rotate180 (rotate180 r) = r := by
  cases r <;> rfl

/-- C7.  For every rotation move whose wall-kick index is non-negative and
smaller than the size of the wall-kick table of the matching direction -
indexed by the piece type and the rotation the piece had before the move -
`applyMove` (first revision, the one carrying the wall-kick code) computes
the candidate whose position is the old position plus exactly the offset at
that index, commits it when it is valid, and otherwise leaves the state
unchanged. -/
theorem applyMove_wallKick_offset (s : GameState) (m : Move)
    (hGO : s.gameOver = false) (hnn : 0 ≤ m.wallKickIndex) :
    (m.type = .RotateClockwise →
      m.wallKickIndex < ((srsClockwiseKicks s.currentPiece.type s.currentPiece.rotation).length : Int) →
      applyMoveV1 s m =
        (let off := (srsClockwiseKicks s.currentPiece.type s.currentPiece.rotation).getD
          m.wallKickIndex.toNat (0, 0)
        let st : PieceState :=
          { s.currentPiece with
            rotation := rotateClockwise s.currentPiece.rotation
            position := ⟨s.currentPiece.position.xPos + off.1,
                         s.currentPiece.position.yPos + off.2⟩ }
        if isValidState s.board st then some ({ s with currentPiece := st }, true)
        else some (s, false))) ∧
    (m.type = .RotateCounterClockwise →
      m.wallKickIndex < ((srsCounterClockwiseKicks s.currentPiece.type s.currentPiece.rotation).length : Int) →
      applyMoveV1 s m =
        (let off := (srsCounterClockwiseKicks s.currentPiece.type s.currentPiece.rotation).getD
          m.wallKickIndex.toNat (0, 0)
        let st : PieceState :=
          { s.currentPiece with
            rotation := rotateCounterClockwise s.currentPiece.rotation
            position := ⟨s.currentPiece.position.xPos + off.1,
                         s.currentPiece.position.yPos + off.2⟩ }
        if isValidState s.board st then some ({ s with currentPiece := st }, true)
        else some (s, false))) ∧
    (m.type = .Rotate180 →
      m.wallKickIndex < ((srs180Kicks s.currentPiece.type s.currentPiece.rotation).length : Int) →
      applyMoveV1 s m =
        (let off := (srs180Kicks s.currentPiece.type s.currentPiece.rotation).getD
          m.wallKickIndex.toNat (0, 0)
        let st : PieceState :=
          { s.currentPiece with
            rotation := rotate180 s.currentPiece.rotation
            position := ⟨s.currentPiece.position.xPos + off.1,
                         s.currentPiece.position.yPos + off.2⟩ }
        if isValidState s.board st then some ({ s with currentPiece := st }, true)
        else some (s, false))) := by
  obtain ⟨mt, idx⟩ := m
  simp only [Move.wallKickIndex] at hnn
  refine ⟨fun ht hlt => ?_, fun ht hlt => ?_, fun ht hlt => ?_⟩ <;> subst ht <;>
    simp only [Move.type, Move.wallKickIndex] at hlt ⊢ <;>
    have hidx := And.intro hnn hlt <;>
    simp [applyMoveV1, candidateStateV1, hGO, ccw_cw, cw_ccw, r180_r180, hidx]

/-- C7 witness: spec scenario c.  I-piece at `(0, 10)` rotation `R0` on the
empty 10x20 board; `RotateClockwise` with wall-kick index 2 adds the offset
`(+1, 0)` of the SRS I clockwise table for `fromRotation = R0`, and the
kicked candidate at `(1, 10)`, `R90` is valid and commits. -/
theorem applyMove_wallKick_offset_witness :
    applyMoveV1 gsI10 ⟨.RotateClockwise, 2⟩ =
      some ({ gsI10 with currentPiece := ⟨.I, ⟨1, 10⟩, .R90⟩ }, true) := by
  have h := (applyMove_wallKick_offset gsI10 ⟨.RotateClockwise, 2⟩ (by decide)
    (by decide)).1 rfl (by decide)
  rw [h]
  decide

/-- `spawnPiece` leaves the board, hold slot, hold flag and line counter
untouched: it only replaces the current piece and possibly sets `gameOver`. -/
theorem spawnPiece_frame (s : GameState) (t : PieceType) :
    (spawnPiece s t).1.heldPiece = s.heldPiece ∧
    (spawnPiece s t).1.holdUsed = s.holdUsed ∧
    (spawnPiece s t).1.board = s.board ∧
    (spawnPiece s t).1.linesCleared = s.linesCleared := by
  simp only [spawnPiece]
  split <;> simp

/-- `spawnNextPiece` leaves the board, hold slot, hold flag and line counter
untouched. -/
theorem spawnNextPiece_frame (s : GameState) :
    (spawnNextPiece s).1.heldPiece = s.heldPiece ∧
    (spawnNextPiece s).1.holdUsed = s.holdUsed ∧
    (spawnNextPiece s).1.board = s.board ∧
    (spawnNextPiece s).1.linesCleared = s.linesCleared := by
  unfold spawnNextPiece
  rcases hq : s.nextPieces with _ | ⟨t, rest⟩
  · exact ⟨rfl, rfl, rfl, rfl⟩
  · exact spawnPiece_frame { s with nextPieces := rest } t


/-- C8 amended.  `holdCurrentPiece` fails immediately with the state fully
unchanged when `holdUsed` is set; on any other failure it restores the prior
hold value and leaves the hold flag, the board and the line counter
unchanged, but (as the counterexample shows) the current piece, the next
queue and the `gameOver` flag may retain the modifications of the failed
spawn; on success it sets `holdUsed`. -/
theorem holdCurrentPiece_amended (s r : GameState) (ret : Bool)
    (h : holdCurrentPiece s = (r, ret)) :
    (s.holdUsed = true → r = s ∧ ret = false) ∧
    (ret = false → r.heldPiece = s.heldPiece ∧ r.holdUsed = s.holdUsed ∧
      r.board = s.board ∧ r.linesCleared = s.linesCleared) ∧
    (ret = true → r.holdUsed = true) := by
  unfold holdCurrentPiece at h
  by_cases hu : s.holdUsed = true
  · rw [if_pos hu] at h
    obtain ⟨h1, h2⟩ := Prod.mk.injEq .. ▸ h
    subst h1; subst h2
    exact ⟨fun _ => ⟨rfl, rfl⟩, fun _ => ⟨rfl, rfl, rfl, rfl⟩, fun hf => absurd hf (by simp)⟩
  · rw [if_neg hu] at h
    rcases hheld : s.heldPiece with _ | ht0 <;> rw [hheld] at h <;> dsimp only at h
    · rcases hq : spawnNextPiece { s with heldPiece := some s.currentPiece.type } with ⟨r0, b0⟩
      have frame := spawnNextPiece_frame { s with heldPiece := some s.currentPiece.type }
      rw [hq] at frame h
      rcases b0 with _ | _ <;> simp only [Bool.false_eq_true, if_true, if_false] at h <;>
        obtain ⟨h1, h2⟩ := Prod.mk.injEq .. ▸ h
      · subst h1; subst h2
        refine ⟨fun hc => absurd hc hu, fun _ => ⟨rfl, frame.2.1, frame.2.2.1, frame.2.2.2⟩,
          fun hc => absurd hc (by simp)⟩
      · subst h1; subst h2
        exact ⟨fun hc => absurd hc hu, fun hc => absurd hc (by simp), fun _ => rfl⟩
    · rcases hq : spawnPiece { s with heldPiece := some s.currentPiece.type } ht0 with ⟨r0, b0⟩
      have frame := spawnPiece_frame { s with heldPiece := some s.currentPiece.type } ht0
      rw [hq] at frame h
      rcases b0 with _ | _ <;> simp only [Bool.false_eq_true, if_true, if_false] at h <;>
        obtain ⟨h1, h2⟩ := Prod.mk.injEq .. ▸ h
      · subst h1; subst h2
        refine ⟨fun hc => absurd hc hu, fun _ => ⟨rfl, frame.2.1, frame.2.2.1, frame.2.2.2⟩,
          fun hc => absurd hc (by simp)⟩
      · subst h1; subst h2
        exact ⟨fun hc => absurd hc hu, fun hc => absurd hc (by simp), fun _ => rfl⟩

/-- C8 witness: the amended theorem applied to the concrete failing hold
`gsHoldCX`. -/
theorem holdCurrentPiece_amended_witness :
    gsHoldCXPost.heldPiece = gsHoldCX.heldPiece ∧
    gsHoldCXPost.holdUsed = gsHoldCX.holdUsed ∧
    gsHoldCXPost.board = gsHoldCX.board ∧
    gsHoldCXPost.linesCleared = gsHoldCX.linesCleared :=
  (holdCurrentPiece_amended gsHoldCX gsHoldCXPost false (by decide)).2.1 rfl

/-- Soundness of `isValidState`: when it returns `true`, every absolute
cell of the piece is inside `[0, W) x [0, H)` and on an empty board cell. -/
theorem isValidState_sound (b : RowsBoard) (st : PieceState)
    (h : isValidState b st = true) :
    ∀ c ∈ absoluteFilledCells st,
      0 ≤ c.xPos ∧ c.xPos < b.width ∧ 0 ≤ c.yPos ∧ c.yPos < b.height ∧
        b.isFilled c.xPos c.yPos = false := by
  intro c hc
  have hcf := List.all_eq_true.mp h c hc
  simp only [cellFree, Bool.and_eq_true, decide_eq_true_eq, Bool.not_eq_true'] at hcf
  exact ⟨hcf.1.1.1.1, hcf.1.1.1.2, hcf.1.1.2, hcf.1.2, hcf.2⟩

/-- A successful `spawnPiece` leaves a current piece that is valid on the
(unchanged) board. -/
theorem spawnPiece_true_valid (s r : GameState) (t : PieceType)
    (h : spawnPiece s t = (r, true)) :
    isValidState r.board r.currentPiece = true := by
  unfold spawnPiece at h
  dsimp only at h
  split at h
  next hv =>
    obtain ⟨h1, h2⟩ := Prod.mk.injEq .. ▸ h
    subst h1
    exact hv
  next hv =>
    exact absurd (Prod.mk.injEq .. ▸ h).2 (by simp)

/-- A successful `spawnNextPiece` leaves a valid current piece. -/
theorem spawnNextPiece_true_valid (s r : GameState)
    (h : spawnNextPiece s = (r, true)) :
    isValidState r.board r.currentPiece = true := by
  unfold spawnNextPiece at h
  rcases hq : s.nextPieces with _ | ⟨t, rest⟩ <;> rw [hq] at h
  · exact absurd (Prod.mk.injEq .. ▸ h).2 (by simp)
  · exact spawnPiece_true_valid _ _ _ h

/-- A successful `holdCurrentPiece` leaves a valid current piece. -/
theorem holdCurrentPiece_true_valid (s r : GameState)
    (h : holdCurrentPiece s = (r, true)) :
    isValidState r.board r.currentPiece = true := by
  unfold holdCurrentPiece at h
  by_cases hu : s.holdUsed = true
  · rw [if_pos hu] at h
    exact absurd (Prod.mk.injEq .. ▸ h).2 (by simp)
  · rw [if_neg hu] at h
    rcases hheld : s.heldPiece with _ | ht0 <;> rw [hheld] at h <;> dsimp only at h
    · rcases hq : spawnNextPiece { s with heldPiece := some s.currentPiece.type } with ⟨r0, b0⟩
      rw [hq] at h
      rcases b0 with _ | _ <;> simp only [Bool.false_eq_true, if_true, if_false] at h
      · exact absurd (Prod.mk.injEq .. ▸ h).2 (by simp)
      · obtain ⟨h1, _⟩ := Prod.mk.injEq .. ▸ h
        subst h1
        have hv := spawnNextPiece_true_valid _ r0 hq
        exact hv
    · rcases hq : spawnPiece { s with heldPiece := some s.currentPiece.type } ht0 with ⟨r0, b0⟩
      rw [hq] at h
      rcases b0 with _ | _ <;> simp only [Bool.false_eq_true, if_true, if_false] at h
      · exact absurd (Prod.mk.injEq .. ▸ h).2 (by simp)
      · obtain ⟨h1, _⟩ := Prod.mk.injEq .. ▸ h
        subst h1
        have hv := spawnPiece_true_valid _ r0 ht0 hq
        exact hv

/-- C1 amended.  For the first `applyMove` revision: when `gameOver` is set
the call returns `false` and changes nothing; whenever the call returns
`true` every absolute cell of the current piece lies within
`[0, W) x [0, H)` and on an empty board cell; and whenever it returns
`false` on a move other than `Hold` the current piece is unchanged.  (For a
failed `Hold` the counterexample shows the current piece can change and
`gameOver` can be set by the failed spawn.) -/
theorem applyMoveV1_amended (s : GameState) (m : Move) (r : GameState) (ret : Bool)
    (h : applyMoveV1 s m = some (r, ret)) :
    (s.gameOver = true → r = s ∧ ret = false) ∧
    (ret = true → ∀ c ∈ absoluteFilledCells r.currentPiece,
      0 ≤ c.xPos ∧ c.xPos < r.board.width ∧ 0 ≤ c.yPos ∧ c.yPos < r.board.height ∧
        r.board.isFilled c.xPos c.yPos = false) ∧
    (ret = false → m.type ≠ .Hold → r.currentPiece = s.currentPiece) := by
  unfold applyMoveV1 at h
  by_cases hgo : s.gameOver = true
  · rw [if_pos hgo] at h
    injection h with h
    obtain ⟨h1, h2⟩ := Prod.mk.injEq .. ▸ h
    subst h1; subst h2
    exact ⟨fun _ => ⟨rfl, rfl⟩, fun hc => absurd hc (by simp), fun _ _ => rfl⟩
  · rw [if_neg hgo] at h
    by_cases hm : m.type = .Hold
    · rw [if_pos hm] at h
      by_cases hu : s.holdUsed = true
      · rw [if_pos hu] at h
        injection h with h
        obtain ⟨h1, h2⟩ := Prod.mk.injEq .. ▸ h
        subst h1; subst h2
        exact ⟨fun hc => absurd hc hgo, fun hc => absurd hc (by simp), fun _ _ => rfl⟩
      · rw [if_neg hu] at h
        injection h with h
        refine ⟨fun hc => absurd hc hgo, fun hret => ?_, fun _ hmm => absurd hm hmm⟩
        subst hret
        exact isValidState_sound _ _ (holdCurrentPiece_true_valid s r h)
    · rw [if_neg hm] at h
      rcases hc : candidateStateV1 s m with _ | st <;> rw [hc] at h <;> dsimp only at h
      · exact Option.noConfusion h
      · by_cases hv : isValidState s.board st = true
        · rw [if_pos hv] at h
          injection h with h
          obtain ⟨h1, h2⟩ := Prod.mk.injEq .. ▸ h
          subst h1; subst h2
          exact ⟨fun hc => absurd hc hgo, fun _ => isValidState_sound _ _ hv,
            fun hf _ => absurd hf (by simp)⟩
        · rw [if_neg hv] at h
          injection h with h
          obtain ⟨h1, h2⟩ := Prod.mk.injEq .. ▸ h
          subst h1; subst h2
          exact ⟨fun hc => absurd hc hgo, fun hc => absurd hc (by simp), fun _ _ => rfl⟩

/-- C1 witness: the amended theorem applied to the successful move `Right`
of the I-piece at `(0, 10)` on the empty 10x20 board, instantiated at the
resulting cell `(1, 12)`. -/
theorem applyMoveV1_amended_witness :
    0 ≤ (1 : Int) ∧ (1 : Int) < rows10.width ∧ 0 ≤ (12 : Int) ∧ (12 : Int) < rows10.height ∧
      rows10.isFilled 1 12 = false := by
  have h := applyMoveV1_amended gsI10 ⟨.Right, -1⟩
    ({ gsI10 with currentPiece := ⟨.I, ⟨1, 10⟩, .R0⟩ }) true (by decide)
  exact h.2.1 rfl ⟨1, 12⟩ (by decide)

/-- C6 amended.  In `findLandingPositions` with `maxDepth > 0`, a dequeued
node whose depth is at least `maxDepth` is skipped entirely: the `continue`
of the depth cutoff bypasses the landing check as well as the successor
expansion, so the node is not recorded as a `LandingPosition` even when its
piece moved one step down would collide, and the BFS continues with the
queue, visited set and output unchanged. -/
theorem findLandingAux_depth_cutoff (bd : RowsBoard) (cfg : SearchConfig)
    (maxDepth : Nat) (node : SearchNode) (queue : List SearchNode)
    (visited : List PieceState) (out : List LandingPosition)
    (trace : List SearchNode) (fuel : Nat)
    (h1 : 0 < maxDepth) (h2 : maxDepth ≤ node.depth) :
    findLandingAux bd cfg maxDepth (node :: queue) visited out trace (fuel + 1) =
      findLandingAux bd cfg maxDepth queue visited out (trace ++ [node]) fuel := by
  rw [findLandingAux]
  rw [if_pos ⟨h1, h2⟩]

/-- C6 witness: the cutoff theorem applied to the concrete skipped node of
the depth-limited run. -/
theorem findLandingAux_depth_cutoff_witness :
    findLandingAux rows4 {} 1 [skippedNodeC6] [] [] [] 5 =
      findLandingAux rows4 {} 1 [] [] [] [skippedNodeC6] 4 :=
  findLandingAux_depth_cutoff rows4 {} 1 skippedNodeC6 [] [] [] [] 4 (by decide) (by decide)

/-- The source's `isCellOccupied` agrees with the claim's corner-occupancy
predicate. -/
theorem claimOccupied_eq (bd : RowsBoard) :
    ∀ x y, isCellOccupied bd x y = claimCornerOccupied bd ⟨x, y⟩ := by
  intro x y
  simp only [isCellOccupied, claimCornerOccupied]
  by_cases h1 : x < 0 ∨ x ≥ bd.width ∨ y < 0 ∨ y ≥ bd.height
  · rw [if_pos h1]
    have hb : (decide (0 ≤ x) && decide (x < bd.width) &&
        decide (0 ≤ y) && decide (y < bd.height)) = false := by
      rcases h1 with h | h | h | h <;> simp <;> omega
    rw [hb]
    rfl
  · rw [if_neg h1]
    push_neg at h1
    obtain ⟨a1, a2, a3, a4⟩ := h1
    simp [a1, a2, a3, a4]

/-- `detectTSpin` computes exactly the claim's classification, at every
board, pivot, rotation and last-move flag. -/
theorem detectTSpin_matches_claim (bd : RowsBoard) (p : PieceState) (lr : Bool) :
    detectTSpin bd p lr = tSpinTypeClaim bd p lr := by
  rcases p with ⟨t, ⟨px, py⟩, rot⟩
  by_cases ht : t = PieceType.T
  case neg =>
    have h2 : (⟨t, ⟨px, py⟩, rot⟩ : PieceState).type ≠ PieceType.T := ht
    cases lr <;> simp [detectTSpin, tSpinTypeClaim, h2]
  case pos =>
    subst ht
    cases lr
    case false => rfl
    case true =>
      rcases hA : claimCornerOccupied bd ⟨px - 1, py + 1⟩ with _ | _ <;>
      rcases hB : claimCornerOccupied bd ⟨px + 1, py + 1⟩ with _ | _ <;>
      rcases hC : claimCornerOccupied bd ⟨px - 1, py - 1⟩ with _ | _ <;>
      rcases hD : claimCornerOccupied bd ⟨px + 1, py - 1⟩ with _ | _ <;>
      cases rot <;>
      simp [detectTSpin, tSpinTypeClaim, detectTSpinFromCorners, claimCorners,
        claimFrontPairOccupied, claimOccupied_eq, hA, hB, hC, hD]
/-- Every landing recorded by the BFS loop carries the T-spin type that
`detectTSpin` assigns to its own piece state and path. -/
theorem findLandingAux_tSpinType (bd : RowsBoard) (cfg : SearchConfig) (maxDepth : Nat) :
    ∀ (fuel : Nat) (queue : List SearchNode) (visited : List PieceState)
      (out : List LandingPosition) (trace : List SearchNode),
      (∀ l ∈ out, l.tSpinType = detectTSpin bd l.state (lastMoveIsRotation l.path)) →
      ∀ l ∈ (findLandingAux bd cfg maxDepth queue visited out trace fuel).1,
        l.tSpinType = detectTSpin bd l.state (lastMoveIsRotation l.path) := by
  intro fuel
  induction fuel with
  | zero =>
    intro queue visited out trace hout l hl
    cases queue <;> simp only [findLandingAux] at hl <;> exact hout l hl
  | succ fuel ih =>
    intro queue visited out trace hout l hl
    cases queue with
    | nil =>
      simp only [findLandingAux] at hl
      exact hout l hl
    | cons node rest =>
      rw [findLandingAux] at hl
      by_cases hd : 0 < maxDepth ∧ node.depth ≥ maxDepth
      · rw [if_pos hd] at hl
        exact ih rest visited out _ hout l hl
      · rw [if_neg hd] at hl
        refine ih _ _ _ _ ?_ l hl
        intro l2 hl2
        by_cases hland : isAtLandingPosition bd node.state = true
        · rw [if_pos hland] at hl2
          rcases List.mem_append.mp hl2 with hmem | hmem
          · exact hout l2 hmem
          · rcases List.mem_singleton.mp hmem with rfl
            rfl
        · rw [if_neg hland] at hl2
          exact hout l2 hl2

/-- C4.  For every board, configuration, root piece, depth limit and fuel,
every landing position returned by `findLandingPositions` carries exactly
the claim's T-spin classification `tSpinTypeClaim` of its piece state and
of whether the last move of its path is a rotation: 0 for non-T pieces;
for a T piece with pivot `(px, py)`, counting as occupied each diagonal
corner that is outside the board or filled, 0 when the last move is not a
rotation, 1 (Regular) with at least 3 occupied corners, 2 (Mini) with
exactly 2 occupied corners forming the rotation-specific front pair
(R0: A,B; R90: B,D; R180: C,D; R270: A,C), and 0 otherwise. -/
theorem landing_tSpinType_matches_claim (bd : RowsBoard) (cfg : SearchConfig)
    (p : PieceState) (maxDepth fuel : Nat) :
    ∀ l ∈ findLandingPositions bd cfg p maxDepth fuel,
      l.tSpinType = tSpinTypeClaim bd l.state (lastMoveIsRotation l.path) := by
  intro l hl
  have h := findLandingAux_tSpinType bd cfg maxDepth fuel
    [{ state := p, lastMove := ⟨.Down, -1⟩, path := [], depth := 0 }] [p] [] []
    (fun l2 hl2 => absurd hl2 (List.not_mem_nil l2)) l hl
  rw [h, detectTSpin_matches_claim]

/-- C4 witness: the theorem applied to the landing the depth-limited run on
the empty 4x4 board records for its root O-piece, whose type is
correctly 0. -/
theorem landing_tSpinType_matches_claim_witness :
    (0 : Int) = tSpinTypeClaim rows4 searchRootO (lastMoveIsRotation []) := by
  have h := landing_tSpinType_matches_claim rows4 {} searchRootO 1 100
    { state := searchRootO, path := [], tSpinType := 0 } (by decide)
  exact h

end NeoZZZ
